import Mathlib

/-!
Shallow embedding of the BUFR query/result core of the ioda-converters
repository (files `QuerySet.cpp` and `ResultSet.cpp` under
`src/src/bufr/BufrParser/Query/`).

Machine doubles are modelled as exact rationals (the embedded code only
copies and compares them; it never performs rounding arithmetic on them),
machine integers as `Int`/`Nat` (all values exercised by the claims are
far from any overflow boundary), and fallible operations (out-of-bounds
vector accesses, thrown `eckit` exceptions) return `Except Err`.
Declarations translated from headers that are not part of the two given
source files carry a doc comment starting with `Modelled from the spec:`.
-/

namespace IodaBufr

/-- Logical error taxonomy of the core (spec §7), plus `indexOutOfBounds`
and `frontOnEmpty` for the places where the C++ performs an unchecked
vector access (undefined behaviour); a total embedding makes those the
reachable error branches. -/
inductive Err where
  | emptyResultSet
  | unknownField
  | unknownName
  | badGroupByPath
  | badConversion
  | badOverrideType
  | indexOutOfBounds
  | frontOnEmpty
deriving DecidableEq

/-- Bounds-checked read standing for `v[i]` on a `std::vector` (the C++
access is unchecked; out of bounds is undefined behaviour, embedded as the
error branch). -/
def getAtE (l : List α) (i : Nat) : Except Err α :=
  match l[i]? with
  | some a => Except.ok a
  | none => Except.error Err.indexOutOfBounds

/-- Bounds-checked write standing for `v[i] = a`. -/
def setAtE (l : List α) (i : Nat) (a : α) : Except Err (List α) :=
  if i < l.length then Except.ok (l.set i a) else Except.error Err.indexOutOfBounds

/-- Write at a signed index (the C++ mixes `int` and `size_t` indices; a
negative index is out of bounds). -/
def setAtIE (l : List α) (i : Int) (a : α) : Except Err (List α) :=
  if 0 ≤ i then setAtE l i.toNat a else Except.error Err.indexOutOfBounds

/-- `v.back()` of a possibly empty vector (undefined behaviour when empty). -/
def getLastE (l : List α) : Except Err α :=
  match l.getLast? with
  | some a => Except.ok a
  | none => Except.error Err.indexOutOfBounds

/-- `product<int>(first, last)` from `VectorMath.h`: product of the elements. -/
def iprod (l : List Int) : Int := l.prod

/-- `max(vector)` from `VectorMath.h` (`*std::max_element`); call sites in
`ResultSet.cpp` guard against the empty vector. -/
def vmax : List Int → Int
  | [] => 0
  | x :: xs => xs.foldl max x

/-- A subset selector: a literal subset name or the `*` wildcard
(`Query.h` is not among the sources; spec §3 describes the tagged
variant, and `QuerySet.cpp` reads exactly the two members
`subset->isAnySubset` and `subset->name`). -/
structure SubsetVariant where
  isAnySubset : Bool
  name : String
deriving DecidableEq

/-- Modelled from the spec: a structured Query (spec §3) — an optional
subset selector plus an ordered list of path components; `Query.h` is not
among the sources. -/
structure Query where
  subset : SubsetVariant
  path : List String
deriving DecidableEq

/-- Modelled from the spec: `Query::str()` — path string form with `/` as
separator, `*` for the wildcard selector (spec §3, §6). -/
def Query.str (q : Query) : String :=
  String.intercalate "/" ((if q.subset.isAnySubset then "*" else q.subset.name) :: q.path)

/-- `ResultSet::splitPath` (ResultSet.cpp lines 630-652): split on `/`,
discarding empty components. -/
def splitPath (path : String) : List String :=
  (path.splitOn "/").filter (fun c => c ≠ "")

/-- TypeInfo record (spec §3); the header itself is not among the sources,
but `ResultSet.cpp` reads and writes exactly these four fields. Numeric
fields default to zero and the unit to the empty string. -/
structure TypeInfo where
  reference : Int := 0
  bits : Nat := 0
  scale : Int := 0
  unit : String := ""
deriving DecidableEq

/-- Modelled from the spec: the derived predicate is-string is computed
from the unit tag (spec §3 says the predicates are computed from `bits`,
`scale` and `unit`; string payloads are identified by their unit marker). -/
def TypeInfo.isString (t : TypeInfo) : Bool := t.unit == "CCITT IA5"

/-- Modelled from the spec: derived predicate is-integer (spec §3). -/
def TypeInfo.isInteger (t : TypeInfo) : Bool := decide (t.scale ≤ 0)

/-- Modelled from the spec: derived predicate is-signed (spec §3). -/
def TypeInfo.isSigned (t : TypeInfo) : Bool := decide (t.reference < 0)

/-- Modelled from the spec: derived predicate is-64-bit (spec §3). -/
def TypeInfo.is64Bit (t : TypeInfo) : Bool := decide (32 < t.bits)

/-- The per-frame TypeInfo merge performed inside the frame loop of
`ResultSet::getRawValues` (ResultSet.cpp lines 251-259): element-wise
`min` of `reference`, `max` of `bits`, replacement of `scale` when the
incoming scale's absolute value exceeds the (signed) accumulated scale,
and first non-empty `unit`. -/
def mergeTypeInfo (info t : TypeInfo) : TypeInfo :=
  { reference := min info.reference t.reference
    bits := max info.bits t.bits
    scale := if |t.scale| > info.scale then t.scale else info.scale
    unit := if info.unit = "" then t.unit else info.unit }

/-- Modelled from the spec: the target descriptor attached to a DataField
(spec §3); its header is not among the sources, but `ResultSet.cpp` reads
exactly these four members. -/
structure Target where
  dimPaths : List Query
  exportDimIdxs : List Int
  typeInfo : TypeInfo
  unit : String
deriving DecidableEq

/-- Modelled from the spec: the per-field view inside one DataFrame
(spec §3): flat decoded values (doubles, embedded as exact rationals), the
per-level sequence-count structure, and the target descriptor. The node
name is the key used by DataFrame lookups. -/
structure DataField where
  name : String
  data : List ℚ
  seqCounts : List (List Int)
  target : Target
deriving DecidableEq

/-- Modelled from the spec: a DataFrame is an ordered vector of DataFields
(spec §3). -/
abbrev DataFrame := List DataField

/-- Modelled from the spec: `DataFrame::hasFieldNamed` (spec §4.C, exact
match on field name). -/
def hasFieldNamed (frame : DataFrame) (name : String) : Bool :=
  frame.any (fun f => f.name == name)

/-- Modelled from the spec: `DataFrame::fieldIndexForNodeNamed` (spec
§4.C; signals UnknownField when the name is absent). -/
def fieldIndexForNodeNamed (frame : DataFrame) (name : String) : Except Err Nat :=
  match frame.findIdx? (fun f => f.name == name) with
  | some i => Except.ok i
  | none => Except.error Err.unknownField

/-- Modelled from the spec: `DataFrame::fieldAtIdx` (spec §4.C;
index-addressed, bounds-checked). -/
def fieldAtIdx (frame : DataFrame) (i : Nat) : Except Err DataField :=
  getAtE frame i

/-- The ResultSet state: the field names and the accumulated frames
(`ResultSet.h` members `names_` and `dataFrames_` as used by
`ResultSet.cpp`). -/
structure ResultSet where
  names : List String
  dataFrames : List DataFrame

/-- Modelled from the spec: the missing-value sentinel from `Constants.h`
(not among the sources); spec §6 places it near 1e11, and
`ResultSet::makeDataObject` passes the matching threshold `10e10`, that
is 100000000000. -/
def MissingValue : ℚ := 100000000000

/-- The per-level insert-gap computation of `ResultSet::getRowsForField`
(ResultSet.cpp lines 418-427): `inserts` starts as `dims.size()` copies of
`{0}`; for every repetition level below both `dims.size()` and
`seqCounts.size()` it becomes
`product(dims[r:]) - seqCounts[r] * product(dims[r+1:])` elementwise. -/
def insertsFor (dims : List Int) (seqCounts : List (List Int)) : List (List Int) :=
  (List.range dims.length).map fun repIdx =>
    if repIdx < seqCounts.length then
      (seqCounts.getD repIdx []).map
        (fun c => iprod (dims.drop repIdx) - c * iprod (dims.drop (repIdx + 1)))
    else [0]

/-- One iteration of the index-shifting walk of
`ResultSet::getRowsForField` (ResultSet.cpp lines 430-450): the signed
insert count is converted to `size_t` (embedded as the explicit reduction
modulo 2^64), and every index strictly past the insertion anchor advances
by it. -/
def shiftedIdxs (dims : List Int) (inserts : List (List Int)) (dimIdx insertIdx : Nat)
    (idxs : List Nat) : List Nat :=
  let numInserts : Nat := (((inserts.getD dimIdx []).getD insertIdx 0).emod (2 ^ 64)).toNat
  if 0 < numInserts then
    let p := iprod (dims.drop dimIdx)
    let dataIdx : Int := p * insertIdx + p - numInserts - 1
    idxs.map (fun (ix : Nat) => if dataIdx < (ix : Int) then ix + numInserts else ix)
  else idxs

/-- The full index-shifting walk: levels from deepest to shallowest, and
within a level the parents in order (ResultSet.cpp lines 430-450). -/
def applyInserts (dims : List Int) (inserts : List (List Int)) (idxs : List Nat) : List Nat :=
  ((List.range dims.length).reverse).foldl
    (fun cur dimIdx =>
      (List.range (inserts.getD dimIdx []).length).foldl
        (fun cur insertIdx => shiftedIdxs dims inserts dimIdx insertIdx cur) cur)
    idxs

/-- The scatter loop of `ResultSet::getRowsForField` (ResultSet.cpp
lines 452-456): sequential writes `output[idxs[i]] = data[i]`. -/
def scatterE (out : List ℚ) : List (Nat × ℚ) → Except Err (List ℚ)
  | [] => Except.ok out
  | p :: rest =>
    match setAtE out p.1 p.2 with
    | Except.error e => Except.error e
    | Except.ok out2 => scatterE out2 rest

/-- `ResultSet::getRowsForField` (ResultSet.cpp lines 397-495): compute
max counts, the insert gaps, the shifted indices; scatter the flat data
into a dense `output` of `product(dims)` cells initialised to the missing
sentinel; then apply the group-by projection. -/
def getRowsForField (targetField : DataField) (dims : List Int) (groupbyIdx : Int) :
    Except Err (List (List ℚ)) :=
  let maxCounts : Nat := targetField.seqCounts.foldl (fun m c => max m c.length) 0
  let idxs := applyInserts dims (insertsFor dims targetField.seqCounts)
    (List.range targetField.data.length)
  match scatterE (List.replicate (iprod dims).toNat MissingValue)
      (idxs.zip targetField.data) with
  | Except.error e => Except.error e
  | Except.ok output =>
    if groupbyIdx > 0 then
      if groupbyIdx > (targetField.seqCounts.length : Int) then
        let numRows := (iprod dims).toNat
        (List.range numRows).foldlM (fun rows i =>
            if !output.isEmpty then
              match getAtE rows i with
              | Except.error e => Except.error e
              | Except.ok row =>
                match setAtE row 0 (output.getD 0 0) with
                | Except.error e => Except.error e
                | Except.ok row2 => setAtE rows i row2
            else Except.ok rows)
          (List.replicate (numRows * maxCounts) [MissingValue])
      else
        let g := groupbyIdx.toNat
        let numRows := (iprod (dims.take g)).toNat
        let numsPerRow := (iprod (dims.drop g)).toNat
        (List.range numRows).foldlM (fun rows i =>
            (List.range numsPerRow).foldlM (fun rows j =>
                match getAtE output (i * numsPerRow + j) with
                | Except.error e => Except.error e
                | Except.ok v =>
                  match getAtE rows i with
                  | Except.error e => Except.error e
                  | Except.ok row =>
                    match setAtE row j v with
                    | Except.error e => Except.error e
                    | Except.ok row2 => setAtE rows i row2)
              rows)
          (List.replicate numRows (List.replicate numsPerRow MissingValue))
    else
      Except.ok [output]

/-- Accumulator of the frame loop of `ResultSet::getRawValues`
(ResultSet.cpp lines 222-292). -/
structure SolveState where
  dimPaths : List Query
  exportDims : List Int
  dimsList : List Int
  info : TypeInfo
  groupbyIdx : Int
  totalGroupbyElements : Int
deriving DecidableEq

/-- One frame of the aggregation loop of `ResultSet::getRawValues`
(ResultSet.cpp lines 226-292): possibly replace the dim paths, grow the
dims list, fold the per-level maxima, merge the TypeInfo, and track the
group-by state. -/
def frameStep (targetFieldIdx groupByFieldIdx : Nat) (groupByField : String)
    (st : SolveState) (frame : DataFrame) : Except Err SolveState := do
  let tf ← fieldAtIdx frame targetFieldIdx
  let st :=
    if !tf.target.dimPaths.isEmpty && st.dimPaths.length < tf.target.dimPaths.length then
      { st with dimPaths := tf.target.dimPaths, exportDims := tf.target.exportDimIdxs }
    else st
  let dimsList :=
    if st.dimsList.length < tf.seqCounts.length then
      st.dimsList ++ List.replicate (tf.seqCounts.length - st.dimsList.length) 0
    else st.dimsList
  let dimsList := (List.range dimsList.length).map fun i =>
    if i < tf.seqCounts.length && !(tf.seqCounts.getD i []).isEmpty then
      max (dimsList.getD i 0) (vmax (tf.seqCounts.getD i []))
    else dimsList.getD i 0
  let st := { st with dimsList := dimsList, info := mergeTypeInfo st.info tf.target.typeInfo }
  if groupByField != "" then
    let gf ← fieldAtIdx frame groupByFieldIdx
    let g : Int := max st.groupbyIdx (gf.seqCounts.length : Int)
    if g > (st.dimsList.length : Int) then
      let last ← getLastE gf.target.dimPaths
      let elems := gf.seqCounts.foldl
        (fun acc sc => if !sc.isEmpty then acc * vmax sc else acc) 1
      Except.ok { st with
        groupbyIdx := g
        dimPaths := [last]
        totalGroupbyElements := max st.totalGroupbyElements elems }
    else
      let start := gf.target.exportDimIdxs.length
      let newPaths := if start = 0 then [] else tf.target.dimPaths.drop (start - 1)
      Except.ok { st with groupbyIdx := g, dimPaths := newPaths }
  else
    Except.ok st

/-- `ResultSet::getRawValues` (ResultSet.cpp lines 178-393): resolve the
field indices, validate the group-by path, aggregate across frames,
promote zero dims, apply the group-by reshape, allocate the dense buffer,
inflate every frame's rows into it, then set the leading dim to the total
row count and project by the export dims. Returns the flat data, the
dims, the dim paths and the merged TypeInfo. -/
structure RawResult where
  data : List ℚ
  dims : List Int
  dimPaths : List Query
  info : TypeInfo
deriving DecidableEq

/-- `slice(vector, indices)` from `VectorMath.h` as used at ResultSet.cpp
line 392: project the vector onto the (signed) index list. -/
def sliceE (v : List Int) (idxs : List Int) : Except Err (List Int) :=
  idxs.mapM (fun i =>
    if 0 ≤ i ∧ i.toNat < v.length then Except.ok (v.getD i.toNat 0)
    else Except.error Err.indexOutOfBounds)

def getRawValues (rs : ResultSet) (fieldName groupByField : String) :
    Except Err RawResult := do
  let frame0 ← getAtE rs.dataFrames 0
  let targetFieldIdx ← fieldIndexForNodeNamed frame0 fieldName
  let groupByFieldIdx ←
    if groupByField != "" then do
      let gIdx ← fieldIndexForNodeNamed frame0 groupByField
      let gfe ← fieldAtIdx frame0 gIdx
      let gPath ← getLastE gfe.target.dimPaths
      let tfe ← fieldAtIdx frame0 targetFieldIdx
      let tPath ← getLastE tfe.target.dimPaths
      let gComps := splitPath gPath.str
      let tComps := splitPath tPath.str
      if (List.range (min gComps.length tComps.length)).any
          (fun i => decide (1 ≤ i) && (tComps.getD i "" != gComps.getD i "")) then
        Except.error Err.badGroupByPath
      else
        Except.ok gIdx
    else Except.ok 0
  let tf0 ← fieldAtIdx frame0 targetFieldIdx
  let st0 : SolveState :=
    { dimPaths := tf0.target.dimPaths, exportDims := tf0.target.exportDimIdxs,
      dimsList := [], info := {}, groupbyIdx := 0, totalGroupbyElements := 0 }
  let st ← rs.dataFrames.foldlM (frameStep targetFieldIdx groupByFieldIdx groupByField) st0
  let allDims0 := st.dimsList.map (fun d => if d = 0 then 1 else d)
  let (dims, exportDims, allDims) :=
    if st.groupbyIdx > 0 then
      if st.groupbyIdx > (st.dimsList.length : Int) then
        ([st.totalGroupbyElements], ([0] : List Int), [st.totalGroupbyElements])
      else
        let g := st.groupbyIdx.toNat
        let dims := iprod (allDims0.take g) :: allDims0.drop g
        let shifted := st.exportDims.map (fun e => e - (st.groupbyIdx - 1))
        let filtered := shifted.filter (fun e => 0 ≤ e)
        let filtered :=
          if filtered.isEmpty || filtered.getD 0 (-1) ≠ 0 then 0 :: filtered else filtered
        (dims, filtered, allDims0)
    else (allDims0, st.exportDims, allDims0)
  let d0 ← getAtE dims 0
  let totalRows : Int := d0 * (rs.dataFrames.length : Int)
  let rowLength : Int := iprod (dims.drop 1)
  let buf ← (List.range rs.dataFrames.length).foldlM (fun buf frameIdx => do
      let frame ← getAtE rs.dataFrames frameIdx
      let tf ← fieldAtIdx frame targetFieldIdx
      if tf.data.isEmpty then Except.ok buf
      else do
        let frameData ← getRowsForField tf allDims st.groupbyIdx
        let dataRowIdx : Int := d0 * frameIdx
        (List.range frameData.length).foldlM (fun buf rowIdx => do
            let row := frameData.getD rowIdx []
            (List.range row.length).foldlM (fun buf (colIdx : Nat) =>
                setAtIE buf
                  (dataRowIdx * rowLength + (rowIdx : Int) * (row.length : Int) + (colIdx : Int))
                  (row.getD colIdx 0))
              buf)
          buf)
    (List.replicate (totalRows * rowLength).toNat MissingValue)
  let dims := dims.set 0 totalRows
  let outDims ← sliceE dims exportDims
  Except.ok { data := buf, dims := outDims, dimPaths := st.dimPaths, info := st.info }

/-- Absolute value on the rationals (`fabs` on the stored doubles),
written as a branch so that concrete instances reduce by evaluation. -/
def qabs (x : ℚ) : ℚ := if x < 0 then -x else x

lemma qabs_eq_abs (x : ℚ) : qabs x = |x| := by
  unfold qabs
  split
  · rename_i h
    rw [abs_of_neg h]
  · rename_i h
    rw [abs_of_nonneg (le_of_not_lt h)]

/-- The element kinds of the polymorphic output container (spec §3,
§4.D.4; the `DataObject<T>` instantiations of ResultSet.cpp lines
540-628). -/
inductive ElemKind where
  | i32
  | i64
  | u32
  | u64
  | f32
  | f64
  | str
deriving DecidableEq

/-- Modelled from the spec: `DataObjectBase::setData(data, threshold)` —
the container header is not among the sources; spec §4.D.4 and §6 say a
cell whose magnitude is at or above the threshold converts to the
container's own missing marker (embedded as `none`), and §9 says the
threshold must not be applied to string lanes. -/
def setData (kind : ElemKind) (data : List ℚ) (threshold : ℚ) : List (Option ℚ) :=
  match kind with
  | ElemKind.str => data.map some
  | _ => data.map (fun x => if threshold ≤ qabs x then none else some x)

/-- The typed output container (spec §3): element kind, converted dense
buffer, dims, names, dim paths. -/
structure DataObject where
  kind : ElemKind
  data : List (Option ℚ)
  dims : List Int
  fieldName : String
  groupByFieldName : String
  dimPaths : List Query
deriving DecidableEq

/-- `ResultSet::objectByTypeInfo` (ResultSet.cpp lines 540-586): derive
the element kind from the merged TypeInfo. -/
def objectByTypeInfo (info : TypeInfo) : ElemKind :=
  if info.isString then ElemKind.str
  else if info.isInteger then
    if info.isSigned then
      if info.is64Bit then ElemKind.i64 else ElemKind.i32
    else
      if info.is64Bit then ElemKind.u64 else ElemKind.u32
  else
    if info.is64Bit then ElemKind.f64 else ElemKind.f32

/-- `ResultSet::objectByType` (ResultSet.cpp lines 588-628): the fixed
override vocabulary; an unknown token raises the bad-override error. -/
def objectByType (overrideType : String) : Except Err ElemKind :=
  if overrideType == "int" || overrideType == "int32" then Except.ok ElemKind.i32
  else if overrideType == "float" || overrideType == "float32" then Except.ok ElemKind.f32
  else if overrideType == "double" || overrideType == "float64" then Except.ok ElemKind.f64
  else if overrideType == "string" then Except.ok ElemKind.str
  else if overrideType == "int64" then Except.ok ElemKind.i64
  else if overrideType == "uint64" then Except.ok ElemKind.u64
  else if overrideType == "uint32" || overrideType == "uint" then Except.ok ElemKind.u32
  else Except.error Err.badOverrideType

/-- `ResultSet::makeDataObject` (ResultSet.cpp lines 503-538): pick the
element kind (from the TypeInfo, or from the override vocabulary with the
string/numeric crossing check), then populate the container; the data is
converted with the threshold literal `10e10` of line 531. -/
def makeDataObject (fieldName groupByFieldName : String) (info : TypeInfo)
    (overrideType : String) (data : List ℚ) (dims : List Int) (dimPaths : List Query) :
    Except Err DataObject :=
  let build := fun (kind : ElemKind) =>
    Except.ok { kind := kind
                data := setData kind data ((100000000000 : ℚ))
                dims := dims
                fieldName := fieldName
                groupByFieldName := groupByFieldName
                dimPaths := dimPaths }
  if overrideType == "" then build (objectByTypeInfo info)
  else
    match objectByType overrideType with
    | Except.error e => Except.error e
    | Except.ok kind =>
      if (overrideType == "string" && !info.isString) ||
          (overrideType != "string" && info.isString) then
        Except.error Err.badConversion
      else build kind

/-- `ResultSet::get` (ResultSet.cpp lines 41-84): guard against the empty
ResultSet and unknown field names in frame 0, then run the dimension
solver and box the result. Every failure is surfaced as an error value;
no partial result is produced. -/
def ResultSet.get (rs : ResultSet) (fieldName groupByFieldName overrideType : String) :
    Except Err DataObject :=
  match rs.dataFrames with
  | [] => Except.error Err.emptyResultSet
  | frame0 :: _ =>
    if !hasFieldNamed frame0 fieldName then Except.error Err.unknownField
    else if groupByFieldName != "" && !hasFieldNamed frame0 groupByFieldName then
      Except.error Err.unknownField
    else
      match getRawValues rs fieldName groupByFieldName with
      | Except.error e => Except.error e
      | Except.ok r =>
        makeDataObject fieldName groupByFieldName r.info overrideType r.data r.dims r.dimPaths

/-- `ResultSet::unit` (ResultSet.cpp lines 497-501): read the first
stored frame with no emptiness guard (`dataFrames_.front()` on an empty
vector is undefined behaviour, embedded as the `frontOnEmpty` branch) and
return the target's unit string. The function reads the ResultSet only. -/
def ResultSet.unit (rs : ResultSet) (fieldName : String) : Except Err String :=
  match rs.dataFrames with
  | [] => Except.error Err.frontOnEmpty
  | frame0 :: _ =>
    match fieldIndexForNodeNamed frame0 fieldName with
    | Except.error e => Except.error e
    | Except.ok idx =>
      match fieldAtIdx frame0 idx with
      | Except.error e => Except.error e
      | Except.ok fld => Except.ok fld.target.unit

/-- The QuerySet state (`QuerySet.h` members as used by `QuerySet.cpp`):
the admission flags, the limit and present subset sets, and the query
map. The `std::map` is embedded as an association list with keyed
replacement. -/
structure QuerySet where
  includesAllSubsets : Bool
  addHasBeenCalled : Bool
  limitSubsets : Finset String
  presentSubsets : Finset String
  queryMap : List (String × List Query)

/-- Keyed update of the association list standing for
`queryMap_[name] = queries` (QuerySet.cpp line 78): replace the binding
when the key is present, append it otherwise. -/
def mapSet : List (String × List Query) → String → List Query → List (String × List Query)
  | [], k, v => [(k, v)]
  | (k', v') :: rest, k, v =>
    if k' = k then (k, v) :: rest else (k', v') :: mapSet rest k v

/-- The unrestricted constructor `QuerySet()` (QuerySet.cpp lines 16-22). -/
def emptyQuerySet : QuerySet :=
  { includesAllSubsets := true
    addHasBeenCalled := false
    limitSubsets := ∅
    presentSubsets := ∅
    queryMap := [] }

/-- The restricted constructor `QuerySet(subsets)` (QuerySet.cpp lines
24-35): `includes_all` starts false and flips to true when the limit set
turns out empty. -/
def restrictedQuerySet (subsets : List String) : QuerySet :=
  { includesAllSubsets := decide (subsets.toFinset = ∅)
    addHasBeenCalled := false
    limitSubsets := subsets.toFinset
    presentSubsets := ∅
    queryMap := [] }

/-- The admission-state update performed for one parsed query inside
`QuerySet::add` (QuerySet.cpp lines 48-73): on the unrestricted path
`includes_all` is assigned the query's wildcard flag and the query's
subset name is inserted into `present_subsets`; on the restricted path a
wildcard saturates `present_subsets` to the limit set, and a literal
inserts its name and intersects with the limit set. -/
def addStep (qs : QuerySet) (q : Query) : QuerySet :=
  if qs.limitSubsets = ∅ then
    { qs with
      includesAllSubsets := q.subset.isAnySubset
      presentSubsets := insert q.subset.name qs.presentSubsets }
  else if q.subset.isAnySubset then
    { qs with presentSubsets := qs.limitSubsets }
  else
    { qs with presentSubsets := qs.limitSubsets ∩ insert q.subset.name qs.presentSubsets }

/-- `QuerySet::add(name, queryStr)` (QuerySet.cpp lines 37-79). The path
parser is an external collaborator (spec §6), so the embedding takes the
already parsed query list: the first call clears `includes_all`, every
parsed query updates the admission state in order, and the map entry for
`name` is assigned the parsed list. -/
def QuerySet.add (qs : QuerySet) (name : String) (queries : List Query) : QuerySet :=
  let qs :=
    if !qs.addHasBeenCalled then
      { qs with addHasBeenCalled := true, includesAllSubsets := false }
    else qs
  let qs := queries.foldl addStep qs
  { qs with queryMap := mapSet qs.queryMap name queries }

/-- `QuerySet::includesSubset` (QuerySet.cpp lines 81-97). -/
def includesSubset (qs : QuerySet) (subset : String) : Bool :=
  if qs.includesAllSubsets then true
  else if qs.queryMap.isEmpty then decide (subset ∈ qs.limitSubsets)
  else decide (subset ∈ qs.presentSubsets)

/-- `QuerySet::queriesFor` (QuerySet.cpp lines 110-113): `map::at`
signals the unknown-name error on an absent key. -/
def queriesFor (qs : QuerySet) (name : String) : Except Err (List Query) :=
  match qs.queryMap.lookup name with
  | some v => Except.ok v
  | none => Except.error Err.unknownName

/-- A sequence of `add` calls folded over a QuerySet. -/
def addAll (qs : QuerySet) (adds : List (String × List Query)) : QuerySet :=
  adds.foldl (fun s p => s.add p.1 p.2) qs

/-- The set of subset names mentioned by a sequence of add calls. -/
def mentionedSubsets (adds : List (String × List Query)) : Finset String :=
  adds.foldr (fun p acc => (p.2.map (fun q => q.subset.name)).toFinset ∪ acc) ∅

/-- Decidable equality of `Except` values, needed to settle concrete
scenarios by evaluation. -/
instance instDecEqExcept {ε α : Type} [DecidableEq ε] [DecidableEq α] :
    DecidableEq (Except ε α) := fun x y =>
  match x, y with
  | Except.ok a, Except.ok b =>
    if h : a = b then Decidable.isTrue (congrArg Except.ok h)
    else Decidable.isFalse (fun hc => h (Except.ok.inj hc))
  | Except.error e, Except.error f =>
    if h : e = f then Decidable.isTrue (congrArg Except.error h)
    else Decidable.isFalse (fun hc => h (Except.error.inj hc))
  | Except.ok _, Except.error _ => Decidable.isFalse (fun hc => Except.noConfusion hc)
  | Except.error _, Except.ok _ => Decidable.isFalse (fun hc => Except.noConfusion hc)

/-! Concrete fixtures used by the theorems below. -/

/-- A wildcard query, as the parser would produce for a leading `*`. -/
def qWild : Query := ⟨⟨true, "*"⟩, ["A", "B"]⟩

/-- A literal query naming subset `A`. -/
def qLitA : Query := ⟨⟨false, "A"⟩, ["P"]⟩

/-- A literal query naming subset `B`. -/
def qLitB : Query := ⟨⟨false, "B"⟩, ["P"]⟩

/-! Helper lemmas about the QuerySet embedding. -/

lemma addStep_queryMap (qs : QuerySet) (q : Query) :
    (addStep qs q).queryMap = qs.queryMap := by
  unfold addStep
  split
  · rfl
  · split <;> rfl

lemma addStep_limitSubsets (qs : QuerySet) (q : Query) :
    (addStep qs q).limitSubsets = qs.limitSubsets := by
  unfold addStep
  split
  · rfl
  · split <;> rfl

lemma foldl_addStep_queryMap (l : List Query) :
    ∀ qs : QuerySet, (l.foldl addStep qs).queryMap = qs.queryMap := by
  induction l with
  | nil => intro qs; rfl
  | cons q l ih => intro qs; rw [List.foldl_cons, ih, addStep_queryMap]

lemma foldl_addStep_limitSubsets (l : List Query) :
    ∀ qs : QuerySet, (l.foldl addStep qs).limitSubsets = qs.limitSubsets := by
  induction l with
  | nil => intro qs; rfl
  | cons q l ih => intro qs; rw [List.foldl_cons, ih, addStep_limitSubsets]

lemma add_queryMap (qs : QuerySet) (name : String) (l : List Query) :
    (qs.add name l).queryMap = mapSet qs.queryMap name l := by
  simp only [QuerySet.add, foldl_addStep_queryMap]
  split <;> rfl

lemma lookup_mapSet (m : List (String × List Query)) (k : String) (v : List Query) :
    (mapSet m k v).lookup k = some v := by
  induction m with
  | nil => simp [mapSet, List.lookup]
  | cons p rest ih =>
    by_cases h : p.1 = k
    · simp only [mapSet, h, if_pos]
      simp [List.lookup]
    · simp only [mapSet, h, if_neg, not_false_iff]
      have hne : (k == p.1) = false := beq_eq_false_iff_ne.mpr (fun hh => h hh.symm)
      simp [List.lookup, hne, ih]

lemma mapSet_ne_nil (m : List (String × List Query)) (k : String) (v : List Query) :
    mapSet m k v ≠ [] := by
  cases m with
  | nil => simp [mapSet]
  | cons p rest =>
    unfold mapSet
    split <;> simp

/-- Claim C6, counterexample: the second `add` under the same name does
not leave the queries of the first call in the stored list — the stored
list for `"x"` is not `[qLitA, qLitB]` after `add("x", [qLitA])` then
`add("x", [qLitB])`. -/
theorem C6_counterexample :
    queriesFor ((emptyQuerySet.add "x" [qLitA]).add "x" [qLitB]) "x" ≠
      Except.ok [qLitA, qLitB] := by decide

/-- Claim C6 (amended): `QuerySet::add(name, queryStr)` replaces the list
stored under `name` — after `add(name, s1)` then `add(name, s2)`,
`queries_for(name)` contains exactly the queries parsed from `s2`, in
order, with no deduplication (QuerySet.cpp line 78 assigns
`queryMap_[name] = queries`). -/
theorem C6_amended (qs : QuerySet) (name : String) (l1 l2 : List Query) :
    queriesFor ((qs.add name l1).add name l2) name = Except.ok l2 := by
  unfold queriesFor
  rw [add_queryMap, lookup_mapSet]

lemma foldl_addStep_last_includesAll (l : List Query) :
    ∀ (qs : QuerySet) (hne : l ≠ []), qs.limitSubsets = ∅ →
      (l.foldl addStep qs).includesAllSubsets = (l.getLast hne).subset.isAnySubset := by
  induction l with
  | nil => intro qs hne; exact absurd rfl hne
  | cons q l ih =>
    intro qs _ hlim
    rw [List.foldl_cons]
    cases l with
    | nil =>
      simp only [List.getLast_singleton]
      unfold addStep
      rw [if_pos hlim]
      rfl
    | cons q' l' =>
      have hne' : q' :: l' ≠ [] := by simp
      rw [ih (addStep qs q) hne' (by rw [addStep_limitSubsets]; exact hlim)]
      rw [List.getLast_cons hne']

/-- Claim C7 (amended): on the unrestricted path each parsed query
assigns `includes_all` from its own wildcard flag and records its subset
name in `present_subsets` (so a literal query also clears
`includes_all`); consequently only an `add` whose last parsed query is a
wildcard leaves `includes_subset` true for every subset. -/
theorem C7_amended :
    (∀ (qs : QuerySet) (q : Query), qs.limitSubsets = ∅ →
      (addStep qs q).includesAllSubsets = q.subset.isAnySubset ∧
      (addStep qs q).presentSubsets = insert q.subset.name qs.presentSubsets) ∧
    (∀ (qs : QuerySet) (name s : String) (queries : List Query) (hne : queries ≠ []),
      qs.limitSubsets = ∅ → (queries.getLast hne).subset.isAnySubset = true →
      includesSubset (qs.add name queries) s = true) := by
  constructor
  · intro qs q hlim
    unfold addStep
    rw [if_pos hlim]
    exact ⟨rfl, rfl⟩
  · intro qs name s queries hne hlim hlast
    unfold QuerySet.add
    set qs1 := if !qs.addHasBeenCalled then
      { qs with addHasBeenCalled := true, includesAllSubsets := false } else qs with hqs1
    have hlim1 : qs1.limitSubsets = ∅ := by
      rw [hqs1]; split <;> exact hlim
    have hall : (queries.foldl addStep qs1).includesAllSubsets = true := by
      rw [foldl_addStep_last_includesAll queries qs1 hne hlim1, hlast]
    unfold includesSubset
    simp only [hall, if_pos]

/-- Claim C7, counterexample: an `add` whose parsed list contains a
wildcard followed by a literal does not admit every subset — the literal
(last) query reassigns `includes_all` to false, so a subset named by no
query is rejected. -/
theorem C7_counterexample :
    qWild.subset.isAnySubset = true ∧
    includesSubset (emptyQuerySet.add "x" [qWild, qLitA]) "ZZ" = false := by decide

/-- Witness for the amended claim C7 at a concrete input: an unrestricted
QuerySet, one `add` whose last parsed query is the wildcard. -/
theorem C7_witness :
    (addStep emptyQuerySet qLitA).includesAllSubsets = qLitA.subset.isAnySubset ∧
    includesSubset (emptyQuerySet.add "x" [qLitA, qWild]) "ZZ" = true :=
  ⟨(C7_amended.1 emptyQuerySet qLitA rfl).1,
   C7_amended.2 emptyQuerySet "x" "ZZ" [qLitA, qWild] (by simp) rfl rfl⟩

lemma addStep_restricted_literal (qs : QuerySet) (q : Query)
    (hlim : ¬qs.limitSubsets = ∅) (hq : q.subset.isAnySubset = false) :
    addStep qs q =
      { qs with presentSubsets := qs.limitSubsets ∩ insert q.subset.name qs.presentSubsets } := by
  unfold addStep
  rw [if_neg hlim, hq]
  simp

lemma foldl_addStep_restricted (l : List Query) :
    ∀ (qs : QuerySet) (M : Finset String), ¬qs.limitSubsets = ∅ →
      (∀ q ∈ l, q.subset.isAnySubset = false) →
      qs.presentSubsets = qs.limitSubsets ∩ M →
      (l.foldl addStep qs).presentSubsets
          = qs.limitSubsets ∩ (M ∪ (l.map (fun q => q.subset.name)).toFinset) ∧
        (l.foldl addStep qs).limitSubsets = qs.limitSubsets ∧
        (l.foldl addStep qs).includesAllSubsets = qs.includesAllSubsets ∧
        (l.foldl addStep qs).addHasBeenCalled = qs.addHasBeenCalled := by
  induction l with
  | nil =>
    intro qs M hlim _ hpres
    refine ⟨?_, rfl, rfl, rfl⟩
    simpa using hpres
  | cons q l ih =>
    intro qs M hlim hlit hpres
    rw [List.foldl_cons, addStep_restricted_literal qs q hlim (hlit q (by simp))]
    have hstep : (qs.limitSubsets ∩ insert q.subset.name qs.presentSubsets)
        = qs.limitSubsets ∩ insert q.subset.name M := by
      rw [hpres]
      apply Finset.ext
      intro x
      simp only [Finset.mem_inter, Finset.mem_insert]
      tauto
    obtain ⟨h1, h2, h3, h4⟩ := ih { qs with
        presentSubsets := qs.limitSubsets ∩ insert q.subset.name qs.presentSubsets }
      (insert q.subset.name M) hlim (fun p hp => hlit p (by simp [hp]))
      (by dsimp only; exact hstep)
    dsimp only at h1 h2 h3 h4
    refine ⟨?_, h2, h3, h4⟩
    rw [h1, List.map_cons, List.toFinset_cons, Finset.insert_union, Finset.union_insert]

lemma add_restricted_literal (qs : QuerySet) (name : String) (l : List Query) (M : Finset String)
    (hlim : ¬qs.limitSubsets = ∅) (hall : qs.includesAllSubsets = false)
    (hlit : ∀ q ∈ l, q.subset.isAnySubset = false)
    (hpres : qs.presentSubsets = qs.limitSubsets ∩ M) :
    (qs.add name l).presentSubsets
        = qs.limitSubsets ∩ (M ∪ (l.map (fun q => q.subset.name)).toFinset) ∧
      (qs.add name l).limitSubsets = qs.limitSubsets ∧
      (qs.add name l).includesAllSubsets = false ∧
      (qs.add name l).queryMap = mapSet qs.queryMap name l := by
  simp only [QuerySet.add]
  by_cases hcalled : qs.addHasBeenCalled
  · simp only [hcalled, Bool.not_true, Bool.false_eq_true, if_false]
    have hf := foldl_addStep_restricted l qs M hlim hlit hpres
    exact ⟨hf.1, hf.2.1, by rw [hf.2.2.1]; exact hall,
      by simp only [foldl_addStep_queryMap]⟩
  · have hc : qs.addHasBeenCalled = false := Bool.eq_false_iff.mpr hcalled
    simp only [hc, Bool.not_false, if_true]
    have hf := foldl_addStep_restricted l
      { qs with addHasBeenCalled := true, includesAllSubsets := false } M hlim hlit hpres
    exact ⟨hf.1, hf.2.1, hf.2.2.1, by simp only [foldl_addStep_queryMap]⟩

lemma addAll_restricted (adds : List (String × List Query)) :
    ∀ (qs : QuerySet) (M : Finset String), ¬qs.limitSubsets = ∅ →
      qs.includesAllSubsets = false →
      (∀ p ∈ adds, ∀ q ∈ p.2, q.subset.isAnySubset = false) →
      qs.presentSubsets = qs.limitSubsets ∩ M →
      (addAll qs adds).presentSubsets = qs.limitSubsets ∩ (M ∪ mentionedSubsets adds) ∧
        (addAll qs adds).limitSubsets = qs.limitSubsets ∧
        (addAll qs adds).includesAllSubsets = qs.includesAllSubsets ∧
        (adds ≠ [] → ¬(addAll qs adds).queryMap = []) := by
  induction adds with
  | nil =>
    intro qs M _ _ _ hpres
    refine ⟨?_, rfl, rfl, fun h => absurd rfl h⟩
    simpa [mentionedSubsets] using hpres
  | cons a rest ih =>
    intro qs M hlim hall hlit hpres
    have hstep := add_restricted_literal qs a.1 a.2 M hlim hall
      (fun q hq => hlit a (by simp) q hq) hpres
    have hrest := ih (qs.add a.1 a.2) (M ∪ (a.2.map (fun q => q.subset.name)).toFinset)
      (by rw [hstep.2.1]; exact hlim) hstep.2.2.1
      (fun p hp q hq => hlit p (by simp [hp]) q hq)
      (by rw [hstep.2.1]; exact hstep.1)
    have haddAll : addAll qs (a :: rest) = addAll (qs.add a.1 a.2) rest := rfl
    rw [haddAll]
    refine ⟨?_, ?_, ?_, ?_⟩
    · rw [hrest.1, hstep.2.1]
      congr 1
      rw [Finset.union_assoc]
      rfl
    · rw [hrest.2.1, hstep.2.1]
    · rw [hrest.2.2.1, hstep.2.2.1, hall]
    · intro _
      cases rest with
      | nil =>
        have : (addAll (qs.add a.1 a.2) []).queryMap = mapSet qs.queryMap a.1 a.2 := by
          simpa [addAll] using hstep.2.2.2
        rw [this]
        exact mapSet_ne_nil qs.queryMap a.1 a.2
      | cons b rest' => exact hrest.2.2.2 (by simp)

/-- Claim C8, counterexample: for a QuerySet restricted to
`{"NC001"}` with no `add` calls at all (an empty sequence of adds),
`includes_subset("NC001")` is true, while the claimed right-hand side —
membership of the limit set intersected with the (empty) set of subsets
mentioned so far — is false. -/
theorem C8_counterexample :
    ¬(includesSubset (restrictedQuerySet ["NC001"]) "NC001" = true ↔
      "NC001" ∈ (["NC001"] : List String).toFinset ∩ mentionedSubsets []) := by decide

/-- Claim C8 (amended): for a QuerySet constructed with a non-empty limit
set S, after any NONEMPTY sequence of add calls whose parsed queries all
carry literal subset selectors, `includes_subset(n')` is true iff `n'` is
a member of S intersected with the set of subset names mentioned by the
queries added so far. (With zero adds the code instead admits every
member of S.) -/
theorem C8_amended (subsets : List String) (adds : List (String × List Query)) (s : String)
    (hS : subsets.toFinset ≠ ∅) (hadds : adds ≠ [])
    (hlit : ∀ p ∈ adds, ∀ q ∈ p.2, q.subset.isAnySubset = false) :
    includesSubset (addAll (restrictedQuerySet subsets) adds) s
      = decide (s ∈ subsets.toFinset ∩ mentionedSubsets adds) := by
  have hall : (restrictedQuerySet subsets).includesAllSubsets = false := by
    simp [restrictedQuerySet, hS]
  have h := addAll_restricted adds (restrictedQuerySet subsets) ∅ hS hall hlit
    (by simp [restrictedQuerySet])
  unfold includesSubset
  rw [h.2.2.1, hall]
  have hmapne : ¬(addAll (restrictedQuerySet subsets) adds).queryMap = [] := h.2.2.2 hadds
  have hmap : (addAll (restrictedQuerySet subsets) adds).queryMap.isEmpty = false := by
    simpa [List.isEmpty_iff] using hmapne
  simp only [hmap, Bool.false_eq_true, if_false]
  rw [h.1]
  simp [restrictedQuerySet]

/-- Witness for the amended claim C8 at the concrete restricted-set
scenario of the spec: limit `{"NC001","NC002"}`, one literal add naming
`NC001`. -/
theorem C8_witness :
    includesSubset (addAll (restrictedQuerySet ["NC001", "NC002"]) [("x", [⟨⟨false, "NC001"⟩, ["A"]⟩])])
        "NC001"
      = decide ("NC001" ∈ (["NC001", "NC002"] : List String).toFinset ∩
          mentionedSubsets [("x", [⟨⟨false, "NC001"⟩, ["A"]⟩])]) :=
  C8_amended ["NC001", "NC002"] [("x", [⟨⟨false, "NC001"⟩, ["A"]⟩])] "NC001"
    (by decide) (by simp) (by decide)

/-- A dim-path tag used by the concrete frames below. -/
def pathQ : Query := ⟨⟨true, "*"⟩, ["R", "A"]⟩

/-- A one-value field named `T` with the given TypeInfo and unit. -/
def scalarField (ti : TypeInfo) (u : String) : DataField :=
  { name := "T", data := [1], seqCounts := [[1]],
    target := { dimPaths := [pathQ], exportDimIdxs := [0], typeInfo := ti, unit := u } }

/-- Two frames whose field scales are -5 then 3. -/
def rsScaleA : ResultSet :=
  ⟨["T"], [[scalarField { scale := -5 } "K"], [scalarField { scale := 3 } "K"]]⟩

/-- The same two frames in the opposite order. -/
def rsScaleB : ResultSet :=
  ⟨["T"], [[scalarField { scale := 3 } "K"], [scalarField { scale := -5 } "K"]]⟩

/-- One frame whose field TypeInfo is string-typed. -/
def rsStr : ResultSet := ⟨["T"], [[scalarField { unit := "CCITT IA5" } "u"]]⟩

/-- One plain numeric frame with target unit `K`. -/
def rsUnit : ResultSet := ⟨["T"], [[scalarField {} "K"]]⟩

/-- Claim C10: `unit(field_name)` reads the first stored frame with no
emptiness guard. With at least one frame and the field present it returns
the field's target unit (the embedding is a pure function of the
ResultSet, so the ResultSet is trivially unchanged); with no frames it
reaches the unchecked `front()` access — embedded as the `frontOnEmpty`
branch, which is distinct from the `EmptyResultSet` error that `get`
raises. -/
theorem C10_unit_no_empty_guard :
    (∀ (names : List String) (fieldName : String),
      ResultSet.unit ⟨names, []⟩ fieldName = Except.error Err.frontOnEmpty ∧
      Err.frontOnEmpty ≠ Err.emptyResultSet) ∧
    (∀ (rs : ResultSet) (frame0 : DataFrame) (rest : List DataFrame)
        (fieldName : String) (idx : Nat) (fld : DataField),
      rs.dataFrames = frame0 :: rest →
      fieldIndexForNodeNamed frame0 fieldName = Except.ok idx →
      fieldAtIdx frame0 idx = Except.ok fld →
      rs.unit fieldName = Except.ok fld.target.unit) := by
  constructor
  · intro names fieldName
    exact ⟨rfl, by decide⟩
  · intro rs frame0 rest fieldName idx fld hframes hidx hfld
    simp only [ResultSet.unit, hframes, hidx, hfld]

/-- Witness for claim C10 at concrete inputs: a one-frame ResultSet whose
field's target unit is `K`, and an empty ResultSet. -/
theorem C10_witness :
    ResultSet.unit rsUnit "T" = Except.ok "K" ∧
    ResultSet.unit ⟨["T"], []⟩ "T" = Except.error Err.frontOnEmpty :=
  ⟨C10_unit_no_empty_guard.2 rsUnit [scalarField {} "K"] [] "T" 0 (scalarField {} "K")
      rfl (by decide) (by decide),
   (C10_unit_no_empty_guard.1 ["T"] "T").1⟩

/-! Claim C5: the scale merge of `getRawValues`. -/

lemma mergeTypeInfo_scale_nonneg (info t : TypeInfo) (h : 0 ≤ t.scale) :
    (mergeTypeInfo info t).scale = max info.scale t.scale := by
  unfold mergeTypeInfo
  dsimp only
  rw [abs_of_nonneg h]
  split <;> omega

lemma foldl_mergeTypeInfo_scale (l : List TypeInfo) :
    ∀ init : TypeInfo, (∀ t ∈ l, 0 ≤ t.scale) →
      (l.foldl mergeTypeInfo init).scale = (l.map TypeInfo.scale).foldl max init.scale := by
  induction l with
  | nil => intro init _; rfl
  | cons t l ih =>
    intro init hnn
    rw [List.foldl_cons, List.map_cons, List.foldl_cons,
      ih (mergeTypeInfo init t) (fun s hs => hnn s (by simp [hs])),
      mergeTypeInfo_scale_nonneg init t (hnn t (by simp))]

lemma foldl_max_perm {l l2 : List Int} (hp : l.Perm l2) :
    ∀ b : Int, l.foldl max b = l2.foldl max b := by
  induction hp with
  | nil => intro b; rfl
  | cons x _ ih => intro b; simp only [List.foldl_cons]; exact ih (max b x)
  | swap x y l => intro b; simp only [List.foldl_cons]; rw [sup_right_comm]
  | trans _ _ ih1 ih2 => intro b; rw [ih1 b, ih2 b]

/-- Claim C5 (amended): the scale fold of `getRawValues` replaces the
accumulator with an incoming scale iff the incoming scale's absolute
value exceeds the (signed) accumulator. When every per-frame scale is
non-negative this is an ordinary maximum, and folding the frames in any
order yields the same accumulated scale; with mixed signs the result is
order-dependent (see the counterexample). -/
theorem C5_amended (init : TypeInfo) (l l2 : List TypeInfo)
    (hnn : ∀ t ∈ l, 0 ≤ t.scale) (hp : l.Perm l2) :
    (l.foldl mergeTypeInfo init).scale = (l.map TypeInfo.scale).foldl max init.scale ∧
    (l2.foldl mergeTypeInfo init).scale = (l.foldl mergeTypeInfo init).scale := by
  have hnn2 : ∀ t ∈ l2, 0 ≤ t.scale := fun t ht => hnn t (hp.mem_iff.mpr ht)
  refine ⟨foldl_mergeTypeInfo_scale l init hnn, ?_⟩
  rw [foldl_mergeTypeInfo_scale l init hnn, foldl_mergeTypeInfo_scale l2 init hnn2]
  exact (foldl_max_perm (hp.map TypeInfo.scale) init.scale).symm

/-- Claim C5, counterexample: `getRawValues` merges per-frame TypeInfos
with `if abs(new.scale) > acc.scale then acc.scale := new.scale` — the
comparison is against the signed accumulator, not its magnitude. Folding
frames with scales -5 and 3 gives accumulated scale 3, while the opposite
order gives -5: the two magnitudes differ, and neither order is the
claimed max-by-magnitude result in both cases. -/
theorem C5_counterexample :
    Except.map (fun r => r.info.scale) (getRawValues rsScaleA "T" "") = Except.ok 3 ∧
    Except.map (fun r => r.info.scale) (getRawValues rsScaleB "T" "") = Except.ok (-5) ∧
    ¬|(3 : Int)| = |(-5 : Int)| := by decide

/-- Witness for the amended claim C5 at concrete inputs: scales 3 and 4
folded in both orders from the default-initialised TypeInfo. -/
theorem C5_witness :
    (([{ scale := 3 }, { scale := 4 }] : List TypeInfo).foldl mergeTypeInfo {}).scale
        = (([{ scale := 3 }, { scale := 4 }] : List TypeInfo).map TypeInfo.scale).foldl
            max ({} : TypeInfo).scale ∧
    (([{ scale := 4 }, { scale := 3 }] : List TypeInfo).foldl mergeTypeInfo {}).scale
        = (([{ scale := 3 }, { scale := 4 }] : List TypeInfo).foldl mergeTypeInfo {}).scale :=
  C5_amended {} [{ scale := 3 }, { scale := 4 }] [{ scale := 4 }, { scale := 3 }]
    (by decide) (List.Perm.swap _ _ _)

/-! Claim C4: the missing-value threshold of `makeDataObject`. -/

lemma setData_objectByTypeInfo (info : TypeInfo) (hns : info.isString = false)
    (data : List ℚ) (thr : ℚ) :
    setData (objectByTypeInfo info) data thr
      = data.map (fun x => if thr ≤ qabs x then none else some x) := by
  unfold objectByTypeInfo
  rw [hns]
  simp only [Bool.false_eq_true, if_false]
  split
  · split
    · split <;> rfl
    · split <;> rfl
  · split <;> rfl

/-- Claim C4 (amended): `makeDataObject` populates the container with the
threshold literal `10e10` of ResultSet.cpp line 531 — that is 1e11, not
1e10. For a non-string TypeInfo and no override, a cell converts to the
container's missing marker iff its magnitude is at or above 1e11. -/
theorem C4_amended (fieldName groupByFieldName : String) (info : TypeInfo)
    (data : List ℚ) (dims : List Int) (dimPaths : List Query) (obj : DataObject)
    (hns : info.isString = false)
    (hobj : makeDataObject fieldName groupByFieldName info "" data dims dimPaths
      = Except.ok obj)
    (i : Nat) (hi : i < data.length) :
    obj.data.getD i (some 0) = none ↔ (100000000000 : ℚ) ≤ |data.getD i 0| := by
  unfold makeDataObject at hobj
  simp only [beq_self_eq_true, if_true] at hobj
  have hdata : obj.data = setData (objectByTypeInfo info) data ((100000000000 : ℚ)) := by
    rw [← Except.ok.inj hobj]
  rw [hdata, setData_objectByTypeInfo info hns]
  have hx : data[i]? = some data[i] := List.getElem?_eq_getElem hi
  rw [List.getD_eq_getElem?_getD, List.getElem?_map, hx, List.getD_eq_getElem?_getD, hx]
  simp only [Option.map_some, Option.getD_some, qabs_eq_abs]
  by_cases h : (100000000000 : ℚ) ≤ |data[i]| <;> simp [h]

/-- Claim C4, counterexample: a buffer cell of value 5e10 is at or above
the claimed threshold 1e10, yet `makeDataObject` does not convert it to
the missing marker — the threshold actually passed is `10e10` = 1e11. -/
theorem C4_counterexample :
    Except.map (fun o => o.data)
        (makeDataObject "F" "" {} "" [(50000000000 : ℚ)] [1] [])
      = Except.ok [some ((50000000000 : ℚ))] ∧
    (10000000000 : ℚ) ≤ (50000000000 : ℚ) := by
  constructor
  · decide
  · norm_num

/-- Witness for the amended claim C4 at a concrete input: the single cell
2e11 converts to the missing marker. -/
theorem C4_witness :
    ({ kind := ElemKind.u32, data := [none], dims := [1], fieldName := "F",
       groupByFieldName := "", dimPaths := [] } : DataObject).data.getD 0 (some 0) = none ↔
      (100000000000 : ℚ) ≤ |([(200000000000 : ℚ)] : List ℚ).getD 0 0| :=
  C4_amended "F" "" {} [(200000000000 : ℚ)] [1] [] _ rfl (by decide) 0 (by decide)

/-- Claim C9: `get` fails with `EmptyResultSet` on a frame-less
ResultSet, with `UnknownField` when the field name (or a non-empty
group-by name) is absent from frame 0, and with `BadConversion` when a
valid override type crosses the string/numeric boundary; in the `Except`
embedding every such failure is the returned error value and no partial
`DataObject` exists. -/
theorem C9_get_error_surface :
    (∀ (names : List String) (f g o : String),
      ResultSet.get ⟨names, []⟩ f g o = Except.error Err.emptyResultSet) ∧
    (∀ (rs : ResultSet) (frame0 : DataFrame) (rest : List DataFrame) (f g o : String),
      rs.dataFrames = frame0 :: rest → hasFieldNamed frame0 f = false →
      rs.get f g o = Except.error Err.unknownField) ∧
    (∀ (rs : ResultSet) (frame0 : DataFrame) (rest : List DataFrame) (f g o : String),
      rs.dataFrames = frame0 :: rest → hasFieldNamed frame0 f = true →
      g ≠ "" → hasFieldNamed frame0 g = false →
      rs.get f g o = Except.error Err.unknownField) ∧
    (∀ (rs : ResultSet) (frame0 : DataFrame) (rest : List DataFrame) (f g o : String)
        (r : RawResult),
      rs.dataFrames = frame0 :: rest → hasFieldNamed frame0 f = true →
      (g = "" ∨ hasFieldNamed frame0 g = true) →
      getRawValues rs f g = Except.ok r →
      ((o ∈ ["int", "int32", "float", "float32", "double", "float64", "int64", "uint64",
          "uint32", "uint"] ∧ r.info.isString = true) ∨
        (o = "string" ∧ r.info.isString = false)) →
      rs.get f g o = Except.error Err.badConversion) := by
  refine ⟨fun _ _ _ _ => rfl, ?_, ?_, ?_⟩
  · intro rs frame0 rest f g o hframes hf
    simp only [ResultSet.get, hframes, hf, Bool.not_false, if_true]
  · intro rs frame0 rest f g o hframes hf hg hgf
    have hbne : (g != "") = true := bne_iff_ne.mpr hg
    simp only [ResultSet.get, hframes, hf, hgf, hbne, Bool.not_true, Bool.not_false,
      Bool.true_and, Bool.and_true, Bool.false_eq_true, if_false, if_true]
  · intro rs frame0 rest f g o r hframes hf hgok hraw hcross
    have hcond2 : (g != "" && !hasFieldNamed frame0 g) = false := by
      rcases hgok with hg | hg
      · subst hg
        rfl
      · simp [hg]
    rcases hcross with ⟨hmem, hstr⟩ | ⟨ho, hstr⟩
    · simp only [List.mem_cons, List.not_mem_nil, or_false] at hmem
      rcases hmem with rfl | rfl | rfl | rfl | rfl | rfl | rfl | rfl | rfl | rfl <;>
        simp [ResultSet.get, hframes, hf, hcond2, hraw, makeDataObject, objectByType, hstr]
    · subst ho
      simp [ResultSet.get, hframes, hf, hcond2, hraw, makeDataObject, objectByType, hstr]

/-- Witness for claim C9 at concrete inputs: an empty ResultSet, a frame
without the requested field, a frame without the group-by field, and a
string-typed field requested with the numeric override `int32`. -/
theorem C9_witness :
    ResultSet.get ⟨["T"], []⟩ "T" "" "" = Except.error Err.emptyResultSet ∧
    ResultSet.get rsUnit "Z" "" "" = Except.error Err.unknownField ∧
    ResultSet.get rsUnit "T" "Z" "" = Except.error Err.unknownField ∧
    ResultSet.get rsStr "T" "" "int32" = Except.error Err.badConversion :=
  ⟨C9_get_error_surface.1 ["T"] "T" "" "",
   C9_get_error_surface.2.1 rsUnit [scalarField {} "K"] [] "Z" "" "" rfl (by decide),
   C9_get_error_surface.2.2.1 rsUnit [scalarField {} "K"] [] "T" "Z" "" rfl (by decide)
     (by decide) (by decide),
   C9_get_error_surface.2.2.2 rsStr [scalarField { unit := "CCITT IA5" } "u"] [] "T" "" "int32"
     { data := [1], dims := [1], dimPaths := [pathQ], info := { unit := "CCITT IA5" } }
     rfl (by decide) (Or.inl rfl) (by decide) (Or.inl ⟨by decide, by decide⟩)⟩

/-! Claims C1 and C3: concrete runs of the dimension solver. -/

/-- A second dim-path tag, one level deeper. -/
def pathQ2 : Query := ⟨⟨true, "*"⟩, ["R", "A", "B"]⟩

/-- The ragged 2-D field of the claimed scenario: `data=[1,2,3,4,5]`,
`seqCounts=[[2],[2,3]]`. -/
def tfC1 : DataField :=
  { name := "T", data := [1, 2, 3, 4, 5], seqCounts := [[2], [2, 3]],
    target := { dimPaths := [pathQ, pathQ2], exportDimIdxs := [0, 1],
                typeInfo := {}, unit := "K" } }

/-- The one-frame ResultSet holding `tfC1`. -/
def rsC1 : ResultSet := ⟨["T"], [[tfC1]]⟩

/-- Claim C1, counterexample: on the claimed input the dims returned by
`get("T")` are `[2, 3]`, not the claimed `[1, 2, 3]` (the dims list is
`[2,3]`, the leading dim is overwritten with the total row count 2, and
the export projection `[0,1]` can only select from `{2, 3}`). -/
theorem C1_counterexample :
    Except.map (fun o => o.dims) (rsC1.get "T" "" "") = Except.ok [2, 3] ∧
    ([2, 3] : List Int) ≠ [1, 2, 3] := by decide

/-- Claim C1 (amended): on the claimed input `get("T")` returns the dense
buffer `[1, 2, missing, 3, 4, 5]` — the one-cell hole opens after the
first parent's two children — and dims `[2, 3]`. -/
theorem C1_amended :
    rsC1.get "T" "" "" = Except.ok
      { kind := ElemKind.u32,
        data := [some 1, some 2, none, some 3, some 4, some 5],
        dims := [2, 3], fieldName := "T", groupByFieldName := "",
        dimPaths := [pathQ, pathQ2] } := by decide

/-- The scalar field of the claimed single-frame scenario: one value
273.15 and an empty `seqCounts` (repetition depth 0). -/
def tfC3 : DataField :=
  { name := "T", data := [(5463 : ℚ) / 20], seqCounts := [],
    target := { dimPaths := [pathQ], exportDimIdxs := [0], typeInfo := {}, unit := "K" } }

/-- The one-frame ResultSet holding `tfC3`. -/
def rsC3 : ResultSet := ⟨["T"], [[tfC3]]⟩

/-- Claim C3: with an empty `seqCounts` the dims list stays empty, so the
zero-promotion loop has nothing to promote and `getRawValues` evaluates
`dims[0]` on an empty `dims` vector (ResultSet.cpp line 356) — an
out-of-bounds access (undefined behaviour), embedded as the error
branch. `get` therefore does not return the claimed `dims [1]`, `buffer
[273.15]`. -/
theorem C3_code_bug :
    rsC3.get "T" "" "" = Except.error Err.indexOutOfBounds := by decide

/-! Claim C2: regular counts and no group-by give one padded row. -/

lemma shiftedIdxs_zero (dims : List Int) (inserts : List (List Int)) (dimIdx insertIdx : Nat)
    (idxs : List Nat) (h : (inserts.getD dimIdx []).getD insertIdx 0 = 0) :
    shiftedIdxs dims inserts dimIdx insertIdx idxs = idxs := by
  unfold shiftedIdxs
  rw [h]
  rfl

lemma applyInserts_zero (dims : List Int) (inserts : List (List Int)) (idxs : List Nat)
    (h : ∀ d i, (inserts.getD d []).getD i 0 = 0) :
    applyInserts dims inserts idxs = idxs := by
  unfold applyInserts
  generalize (List.range dims.length).reverse = ds
  induction ds generalizing idxs with
  | nil => rfl
  | cons d ds ih =>
    rw [List.foldl_cons]
    have hinner : ∀ (cur : List Nat),
        (List.range (inserts.getD d []).length).foldl
          (fun cur insertIdx => shiftedIdxs dims inserts d insertIdx cur) cur = cur := by
      intro cur
      generalize List.range (inserts.getD d []).length = is
      induction is generalizing cur with
      | nil => rfl
      | cons i is ih2 =>
        rw [List.foldl_cons, shiftedIdxs_zero dims inserts d i cur (h d i)]
        exact ih2 cur
    rw [hinner idxs]
    exact ih idxs

lemma insertsFor_zero (dims : List Int) (seqCounts : List (List Int))
    (hreg : ∀ r, r < dims.length → r < seqCounts.length →
      ∀ c ∈ seqCounts.getD r [], c = dims.getD r 0) :
    ∀ d i, ((insertsFor dims seqCounts).getD d []).getD i 0 = 0 := by
  intro d i
  by_cases hd : d < dims.length
  · have hentry : (insertsFor dims seqCounts).getD d [] =
        if d < seqCounts.length then
          (seqCounts.getD d []).map
            (fun c => iprod (dims.drop d) - c * iprod (dims.drop (d + 1)))
        else [0] := by
      unfold insertsFor
      rw [List.getD_eq_getElem?_getD, List.getElem?_map, List.getElem?_range hd]
      rfl
    rw [hentry]
    by_cases hs : d < seqCounts.length
    · rw [if_pos hs]
      by_cases hi : i < (seqCounts.getD d []).length
      · rw [List.getD_eq_getElem?_getD, List.getElem?_map, List.getElem?_eq_getElem hi]
        simp only [Option.map_some', Option.getD_some]
        have hc : (seqCounts.getD d [])[i] = dims.getD d 0 :=
          hreg d hd hs _ (List.getElem_mem hi)
        have hdrop : dims.drop d = dims.getD d 0 :: dims.drop (d + 1) := by
          rw [List.getD_eq_getElem?_getD, List.getElem?_eq_getElem hd]
          simp only [Option.getD_some]
          exact List.drop_eq_getElem_cons hd
        rw [hc, hdrop]
        unfold iprod
        rw [List.prod_cons]
        ring
      · rw [List.getD_eq_getElem?_getD, List.getElem?_map,
          List.getElem?_eq_none (by omega)]
        rfl
    · rw [if_neg hs]
      cases i <;> rfl
  · have hnone : (insertsFor dims seqCounts).getD d [] = [] := by
      rw [List.getD_eq_getElem?_getD, List.getElem?_eq_none]
      · rfl
      · unfold insertsFor
        simpa using hd
    rw [hnone]
    cases i <;> rfl

lemma set_append_length {α : Type} (pre : List α) (a b : α) (ps : List α) :
    (pre ++ b :: ps).set pre.length a = pre ++ a :: ps := by
  induction pre with
  | nil => rfl
  | cons x xs ih => simp [ih]

lemma scatterE_fill (vals : List ℚ) :
    ∀ (pre post : List ℚ), vals.length ≤ post.length →
      scatterE (pre ++ post) ((List.range' pre.length vals.length).zip vals)
        = Except.ok (pre ++ vals ++ post.drop vals.length) := by
  induction vals with
  | nil =>
    intro pre post _
    simp [scatterE]
  | cons v vs ih =>
    intro pre post hlen
    cases post with
    | nil => simp at hlen
    | cons p ps =>
      simp only [List.length_cons]
      rw [List.range'_succ, List.zip_cons_cons]
      unfold scatterE
      have hset : setAtE (pre ++ p :: ps) pre.length v = Except.ok (pre ++ v :: ps) := by
        unfold setAtE
        rw [if_pos (by simp), set_append_length]
      rw [hset]
      have hpre : pre ++ v :: ps = (pre ++ [v]) ++ ps := by simp
      have hlen1 : pre.length + 1 = (pre ++ [v]).length := by simp
      rw [hpre, hlen1]
      dsimp only
      rw [ih (pre ++ [v]) ps (by simpa using hlen)]
      simp

/-- Claim C2: for every DataField whose sequence counts are regular —
each per-parent count at level r equals `dims[r]`, so every computed
insert is zero — and no group-by, `getRowsForField` emits exactly one row
equal to the flat data padded with the missing sentinel to `Π dims`
(which presupposes the data fits in `Π dims` cells, hypothesis `hfit`). -/
theorem C2_regular_single_row (tf : DataField) (dims : List Int)
    (hreg : ∀ r, r < dims.length → r < tf.seqCounts.length →
      ∀ c ∈ tf.seqCounts.getD r [], c = dims.getD r 0)
    (hfit : tf.data.length ≤ (iprod dims).toNat) :
    getRowsForField tf dims 0 =
      Except.ok [tf.data ++
        List.replicate ((iprod dims).toNat - tf.data.length) MissingValue] := by
  unfold getRowsForField
  rw [applyInserts_zero dims _ _ (insertsFor_zero dims tf.seqCounts hreg)]
  have hsc := scatterE_fill tf.data [] (List.replicate (iprod dims).toNat MissingValue)
    (by simpa using hfit)
  simp only [List.nil_append, List.length_nil] at hsc
  rw [← List.range_eq_range'] at hsc
  dsimp only
  rw [hsc]
  dsimp only
  rw [if_neg (by norm_num : ¬((0 : Int) > 0))]
  rw [List.drop_replicate]

/-- A regular one-level field: one parent with one child, data `[7]`. -/
def tfW2 : DataField :=
  { name := "W", data := [7], seqCounts := [[1]],
    target := { dimPaths := [pathQ], exportDimIdxs := [0], typeInfo := {}, unit := "" } }

/-- Witness for claim C2 at a concrete input: the regular field `tfW2`
with dims `[1]` yields the single row `[7]` with no padding. -/
theorem C2_witness :
    getRowsForField tfW2 [1] 0 =
      Except.ok [tfW2.data ++
        List.replicate ((iprod [1]).toNat - tfW2.data.length) MissingValue] :=
  C2_regular_single_row tfW2 [1]
    (by
      intro r hr hs c hc
      have hr0 : r = 0 := by
        simp only [List.length_cons, List.length_nil] at hr
        omega
      subst hr0
      revert c
      decide)
    (by decide)

end IodaBufr
